import Mathlib

/-!
Shallow embedding of `src/libcretonne/entities.rs`: IL entity references.

Each Rust tuple struct wrapping a `u32` becomes a Lean structure wrapping a
`Nat`; the `u32` domain bound (`< 2^32`) appears as a hypothesis where it
matters.  A Rust `assert!` failure (a fatal fault) is modelled as the `none`
case of an `Option` result; `Option`-returning Rust functions keep their
`Option`.  Arithmetic on `usize` is modelled as `Nat` arithmetic (debug-mode
semantics: overflow is a fault, and every faulting overflow here is already
caught by the modelled assertion).
-/

/-- The constant `u32::MAX` = 2^32 - 1, used as the sentinel for every
entity type. -/
def U32_MAX : Nat := 4294967295

/-- `struct Ebb(u32)`: an opaque reference to an extended basic block. -/
structure Ebb where
  val : Nat
deriving DecidableEq

/-- `Ebb::new(index)`: `assert!(index < u32::MAX as usize); Ebb(index as u32)`.
The assertion failure is the `none` case. -/
def Ebb.new (index : Nat) : Option Ebb :=
  if index < U32_MAX then some ⟨index⟩ else none

/-- `Ebb::with_number(n)`: `if n < u32::MAX { Some(Ebb(n)) } else { None }`.
Here `n` is a `u32`. -/
def Ebb.with_number (n : Nat) : Option Ebb :=
  if n < U32_MAX then some ⟨n⟩ else none

/-- `Ebb::index()`. -/
def Ebb.index (e : Ebb) : Nat := e.val

/-- `pub const NO_EBB: Ebb = Ebb(u32::MAX)`. -/
def NO_EBB : Ebb := ⟨U32_MAX⟩

/-- `impl Default for Ebb`. -/
def Ebb.defaultRef : Ebb := NO_EBB

/-- `struct Inst(u32)`: an opaque reference to an instruction. -/
structure Inst where
  val : Nat
deriving DecidableEq

/-- `Inst::new(index)`: `assert!(index < u32::MAX as usize); Inst(index as u32)`. -/
def Inst.new (index : Nat) : Option Inst :=
  if index < U32_MAX then some ⟨index⟩ else none

/-- `Inst::index()`. -/
def Inst.index (i : Inst) : Nat := i.val

/-- `pub const NO_INST: Inst = Inst(u32::MAX)`. -/
def NO_INST : Inst := ⟨U32_MAX⟩

/-- `impl Default for Inst`. -/
def Inst.defaultRef : Inst := NO_INST

/-- `struct StackSlot(u32)`: an opaque reference to a stack slot. -/
structure StackSlot where
  val : Nat
deriving DecidableEq

/-- `StackSlot::new(index)`. -/
def StackSlot.new (index : Nat) : Option StackSlot :=
  if index < U32_MAX then some ⟨index⟩ else none

/-- `StackSlot::index()`. -/
def StackSlot.index (s : StackSlot) : Nat := s.val

/-- `pub const NO_STACK_SLOT: StackSlot = StackSlot(u32::MAX)`. -/
def NO_STACK_SLOT : StackSlot := ⟨U32_MAX⟩

/-- `impl Default for StackSlot`. -/
def StackSlot.defaultRef : StackSlot := NO_STACK_SLOT

/-- `struct JumpTable(u32)`: an opaque reference to a jump table. -/
structure JumpTable where
  val : Nat
deriving DecidableEq

/-- `JumpTable::new(index)`. -/
def JumpTable.new (index : Nat) : Option JumpTable :=
  if index < U32_MAX then some ⟨index⟩ else none

/-- `JumpTable::index()`. -/
def JumpTable.index (j : JumpTable) : Nat := j.val

/-- `pub const NO_JUMP_TABLE: JumpTable = JumpTable(u32::MAX)`. -/
def NO_JUMP_TABLE : JumpTable := ⟨U32_MAX⟩

/-- `impl Default for JumpTable`. -/
def JumpTable.defaultRef : JumpTable := NO_JUMP_TABLE

/-- `struct Value(u32)`: an opaque reference to an SSA value. -/
structure Value where
  val : Nat
deriving DecidableEq

/-- `enum ExpandedValue`: the decoded form of a `Value`.  The source's third
variant is named `None`; it is called `Absent` here. -/
inductive ExpandedValue where
  | Direct : Inst → ExpandedValue
  | Table : Nat → ExpandedValue
  | Absent : ExpandedValue
deriving DecidableEq

/-- `Value::direct_with_number(n)`: for `n : u32`,
`if n < u32::MAX / 2 { let encoding = n * 2; assert!(encoding < u32::MAX);
Some(Value(encoding)) } else { None }`.  The inner assertion failure would be
a fault, also modelled as `none` (it is provably unreachable). -/
def Value.direct_with_number (n : Nat) : Option Value :=
  if n < U32_MAX / 2 then
    let encoding := n * 2
    if encoding < U32_MAX then some ⟨encoding⟩ else none
  else
    none

/-- `Value::table_with_number(n)`: for `n : u32`,
`if n < u32::MAX / 2 { let encoding = n * 2 + 1; assert!(encoding < u32::MAX);
Some(Value(encoding)) } else { None }`. -/
def Value.table_with_number (n : Nat) : Option Value :=
  if n < U32_MAX / 2 then
    let encoding := n * 2 + 1
    if encoding < U32_MAX then some ⟨encoding⟩ else none
  else
    none

/-- `Value::new_direct(i)`: `let encoding = i.index() * 2;
assert!(encoding < u32::MAX as usize); Value(encoding as u32)`.
Assertion failure is the `none` case. -/
def Value.new_direct (i : Inst) : Option Value :=
  let encoding := i.index * 2
  if encoding < U32_MAX then some ⟨encoding⟩ else none

/-- `Value::new_table(index)`: `let encoding = index * 2 + 1;
assert!(encoding < u32::MAX as usize); Value(encoding as u32)`. -/
def Value.new_table (index : Nat) : Option Value :=
  let encoding := index * 2 + 1
  if encoding < U32_MAX then some ⟨encoding⟩ else none

/-- `pub const NO_VALUE: Value = Value(u32::MAX)`. -/
def NO_VALUE : Value := ⟨U32_MAX⟩

/-- `impl Default for Value`. -/
def Value.defaultRef : Value := NO_VALUE

/-- `Value::expand()`: sentinel check first, then parity.  The even branch
calls `Inst::new(index)`, whose assertion failure propagates as the outer
`none` (a fault inside `expand`). -/
def Value.expand (v : Value) : Option ExpandedValue :=
  if v = NO_VALUE then some ExpandedValue.Absent
  else
    let index := v.val / 2
    if v.val % 2 = 0 then
      (Inst.new index).map ExpandedValue.Direct
    else
      some (ExpandedValue.Table index)

/-- `impl Display for Value`: `Direct(i)` prints `v` then `i.0`; `Table(i)`
prints `vx` then `i`; the sentinel prints the marker token.  A fault inside
`expand` propagates as `none`. -/
def Value.display (v : Value) : Option String :=
  match v.expand with
  | some (ExpandedValue.Direct i) => some (("v" : String) ++ Nat.repr i.val)
  | some (ExpandedValue.Table i) => some (("vx" : String) ++ Nat.repr i)
  | some ExpandedValue.Absent => some ("NO_VALUE" : String)
  | none => none

example : Value.direct_with_number 3 = some ⟨6⟩ := by decide
example : Value.table_with_number 3 = some ⟨7⟩ := by decide
example : Value.expand ⟨6⟩ = some (ExpandedValue.Direct ⟨3⟩) := by decide
example : Value.display ⟨6⟩ = some ("v3" : String) := by decide
example : Value.display ⟨7⟩ = some ("vx3" : String) := by decide
example : Value.display NO_VALUE = some ("NO_VALUE" : String) := by decide

/-! Shared helper lemmas. -/

theorem expand_even (n : Nat) (h : n * 2 < U32_MAX) :
    Value.expand ⟨n * 2⟩ = some (ExpandedValue.Direct ⟨n⟩) := by
  have h1 : (⟨n * 2⟩ : Value) ≠ NO_VALUE := by
    simp only [NO_VALUE, ne_eq, Value.mk.injEq, U32_MAX] at *
    omega
  have h2 : n < U32_MAX := by
    simp only [U32_MAX] at *
    omega
  simp [Value.expand, h1, Inst.new, h2, Nat.mul_div_cancel_left]

theorem expand_odd (n : Nat) (h : n * 2 + 1 < U32_MAX) :
    Value.expand ⟨n * 2 + 1⟩ = some (ExpandedValue.Table n) := by
  have h1 : (⟨n * 2 + 1⟩ : Value) ≠ NO_VALUE := by
    simp only [NO_VALUE, ne_eq, Value.mk.injEq, U32_MAX] at *
    omega
  have h2 : (n * 2 + 1) % 2 = 1 := by omega
  have h3 : (n * 2 + 1) / 2 = n := by omega
  simp [Value.expand, h1, h2, h3]

theorem string_v_ne_marker (s : String) : ("v" : String) ++ s ≠ ("NO_VALUE" : String) := by
  intro h
  have h2 : ('v' :: s.data) = ("NO_VALUE" : String).data := congrArg String.data h
  simp at h2

theorem string_vx_ne_marker (s : String) : ("vx" : String) ++ s ≠ ("NO_VALUE" : String) := by
  intro h
  have h2 : ('v' :: 'x' :: s.data) = ("NO_VALUE" : String).data := congrArg String.data h
  simp at h2

/-! Claim theorems. -/

/-- Claim C1: for every 32-bit payload `p`, `expand` returns exactly one of
three results, the sentinel being tested before parity: `Absent` when
`p = u32::MAX`; `Direct` with instruction index `p / 2` when `p` is even and
not the sentinel; `Table` with table index `p / 2` when `p` is odd and not
the sentinel.  The sentinel itself is odd, yet is never decoded as a table
index. -/
theorem C1_expand_cases (p : Nat) (hp : p < 2 ^ 32) :
    (p = U32_MAX → Value.expand ⟨p⟩ = some ExpandedValue.Absent) ∧
    (p ≠ U32_MAX → p % 2 = 0 → Value.expand ⟨p⟩ = some (ExpandedValue.Direct ⟨p / 2⟩)) ∧
    (p ≠ U32_MAX → p % 2 = 1 → Value.expand ⟨p⟩ = some (ExpandedValue.Table (p / 2))) ∧
    U32_MAX % 2 = 1 ∧ Value.expand ⟨U32_MAX⟩ ≠ some (ExpandedValue.Table (U32_MAX / 2)) := by
  refine ⟨?_, ?_, ?_, by norm_num [U32_MAX], by decide⟩
  · intro h
    subst h
    simp [Value.expand, NO_VALUE]
  · intro hne hpar
    have h1 : (⟨p⟩ : Value) ≠ NO_VALUE := by
      simp only [NO_VALUE, ne_eq, Value.mk.injEq]
      exact hne
    have h2 : p / 2 < U32_MAX := by
      simp only [U32_MAX] at *
      omega
    simp [Value.expand, h1, hpar, Inst.new, h2]
  · intro hne hpar
    have h1 : (⟨p⟩ : Value) ≠ NO_VALUE := by
      simp only [NO_VALUE, ne_eq, Value.mk.injEq]
      exact hne
    simp [Value.expand, h1, hpar]

/-- Witness for C1 at the concrete payloads 6 and 7. -/
theorem C1_witness :
    Value.expand ⟨6⟩ = some (ExpandedValue.Direct ⟨3⟩) ∧
    Value.expand ⟨7⟩ = some (ExpandedValue.Table 3) :=
  ⟨(C1_expand_cases 6 (by norm_num)).2.1 (by decide) (by norm_num),
   (C1_expand_cases 7 (by norm_num)).2.2.1 (by decide) (by norm_num)⟩

/-- Claim C2: for every `n` below `u32::MAX / 2`, `direct_with_number n`
succeeds with payload `2n`, expanding to `Direct` with instruction index `n`
and printing as `v` followed by the decimal `n`; `table_with_number n`
succeeds with payload `2n + 1`, expanding to `Table n` and printing as `vx`
followed by the decimal `n`; and both constructors return absent at
`n = u32::MAX / 2`. -/
theorem C2_numbered_constructors (n : Nat) (hn : n < U32_MAX / 2) :
    Value.direct_with_number n = some ⟨n * 2⟩ ∧
    Value.expand ⟨n * 2⟩ = some (ExpandedValue.Direct ⟨n⟩) ∧
    Value.display ⟨n * 2⟩ = some (("v" : String) ++ Nat.repr n) ∧
    Value.table_with_number n = some ⟨n * 2 + 1⟩ ∧
    Value.expand ⟨n * 2 + 1⟩ = some (ExpandedValue.Table n) ∧
    Value.display ⟨n * 2 + 1⟩ = some (("vx" : String) ++ Nat.repr n) ∧
    Value.direct_with_number (U32_MAX / 2) = none ∧
    Value.table_with_number (U32_MAX / 2) = none := by
  have hd : n * 2 < U32_MAX := by
    simp only [U32_MAX] at *
    omega
  have ht : n * 2 + 1 < U32_MAX := by
    simp only [U32_MAX] at *
    omega
  have he := expand_even n hd
  have ho := expand_odd n ht
  refine ⟨?_, he, ?_, ?_, ho, ?_, by decide, by decide⟩
  · simp [Value.direct_with_number, hn, hd]
  · unfold Value.display
    rw [he]
  · simp [Value.table_with_number, hn, ht]
  · unfold Value.display
    rw [ho]

/-- Witness for C2 at the concrete numeral 3. -/
theorem C2_witness :
    Value.direct_with_number 3 = some ⟨6⟩ ∧ Value.display ⟨6⟩ = some (("v" : String) ++ Nat.repr 3) :=
  ⟨(C2_numbered_constructors 3 (by decide)).1,
   (C2_numbered_constructors 3 (by decide)).2.2.1⟩

/-- Counterexample to C3 at `n = 2147483647 = u32::MAX / 2`: the constructor
returns absent there, yet `2 * n = 4294967294` is below the sentinel, so
absence is not equivalent to `2 * n ≥ u32::MAX`. -/
theorem C3_counterexample :
    ¬ (Value.direct_with_number 2147483647 = none ↔ 2 * 2147483647 ≥ U32_MAX) := by
  decide

/-- Claim C3 as amended: for every 32-bit `n`, `direct_with_number n` is
absent exactly when `n ≥ u32::MAX / 2`, equivalently when
`2 * n + 1 ≥ u32::MAX` (doubling `n` reaches or exceeds the sentinel minus
one, not the sentinel itself). -/
theorem C3_amended (n : Nat) (hn : n < 2 ^ 32) :
    (Value.direct_with_number n = none ↔ n ≥ U32_MAX / 2) ∧
    (Value.direct_with_number n = none ↔ 2 * n + 1 ≥ U32_MAX) := by
  have key : Value.direct_with_number n = none ↔ ¬ (n < U32_MAX / 2) := by
    unfold Value.direct_with_number
    split
    · next h =>
      have h2 : n * 2 < U32_MAX := by
        simp only [U32_MAX] at *
        omega
      simp [h2, h]
    · next h => simp [h]
  constructor
  · rw [key]
    omega
  · rw [key]
    simp only [U32_MAX]
    omega

/-- Witness for the amended C3 at the boundary numeral `2147483647`. -/
theorem C3_witness : Value.direct_with_number 2147483647 = none :=
  ((C3_amended 2147483647 (by norm_num)).1).mpr (by decide)

/-- Counterexample to C4 at index `k = 2147483647`: `new_direct` succeeds
there (its encoding `4294967294` is below the sentinel) while
`direct_with_number` is absent, so the two success sets do not coincide. -/
theorem C4_counterexample :
    (Value.new_direct ⟨2147483647⟩).isSome = true ∧
    Value.direct_with_number 2147483647 = none := by
  decide

/-- Claim C4 as amended: whenever both construction paths are defined they
produce the same Value, and success of `direct_with_number k` implies success
of `new_direct` at index `k`; but the success sets differ: `new_direct`
faults exactly when `2k ≥ u32::MAX` while `direct_with_number` is absent
exactly when `k ≥ u32::MAX / 2`, so `new_direct` additionally succeeds at
`k = u32::MAX / 2`. -/
theorem C4_amended (k : Nat) (hk : k < 2 ^ 32) :
    (∀ v w, Value.new_direct ⟨k⟩ = some v → Value.direct_with_number k = some w → v = w) ∧
    (Value.direct_with_number k ≠ none → Value.new_direct ⟨k⟩ ≠ none) ∧
    (Value.new_direct ⟨k⟩ = none ↔ k * 2 ≥ U32_MAX) ∧
    (Value.direct_with_number k = none ↔ k ≥ U32_MAX / 2) := by
  have keyd : Value.direct_with_number k = none ↔ ¬ (k < U32_MAX / 2) := by
    unfold Value.direct_with_number
    split
    · next h =>
      have h2 : k * 2 < U32_MAX := by
        simp only [U32_MAX] at *
        omega
      simp [h2, h]
    · next h => simp [h]
  have keyn : Value.new_direct ⟨k⟩ = none ↔ ¬ (k * 2 < U32_MAX) := by
    unfold Value.new_direct
    simp [Inst.index]
  refine ⟨?_, ?_, ?_, ?_⟩
  · intro v w hv hw
    have hkd : k < U32_MAX / 2 := by
      by_contra hc
      rw [(keyd.mpr (by omega) : Value.direct_with_number k = none)] at hw
      exact Option.noConfusion hw
    have h2 : k * 2 < U32_MAX := by
      simp only [U32_MAX] at *
      omega
    unfold Value.new_direct at hv
    unfold Value.direct_with_number at hw
    simp [Inst.index, h2, hkd] at hv hw
    rw [← hv, ← hw]
  · intro hne
    have hkd : k < U32_MAX / 2 := by
      by_contra hc
      exact hne (keyd.mpr (by omega))
    have h2 : k * 2 < U32_MAX := by
      simp only [U32_MAX] at *
      omega
    simp only [ne_eq, keyn]
    omega
  · rw [keyn]
    omega
  · rw [keyd]
    omega

/-- Witness for the amended C4 at index 3. -/
theorem C4_witness : Value.new_direct ⟨3⟩ = none ↔ 3 * 2 ≥ U32_MAX :=
  (C4_amended 3 (by norm_num)).2.2.1

/-- Claim C5: the semantic constructors enforce their precondition with a
fatal assertion.  `Ebb::new`, `Inst::new`, `StackSlot::new` and
`JumpTable::new` succeed, with `index()` returning exactly the given index,
for every index strictly below the sentinel, and fault at or above it;
`new_direct` faults exactly when `index * 2 ≥ u32::MAX` and `new_table`
exactly when `index * 2 + 1 ≥ u32::MAX`, and otherwise succeed. -/
theorem C5_constructor_assertions (i : Nat) :
    (i < U32_MAX →
      Ebb.new i = some ⟨i⟩ ∧ Inst.new i = some ⟨i⟩ ∧
      StackSlot.new i = some ⟨i⟩ ∧ JumpTable.new i = some ⟨i⟩ ∧
      Ebb.index ⟨i⟩ = i ∧ Inst.index ⟨i⟩ = i ∧
      StackSlot.index ⟨i⟩ = i ∧ JumpTable.index ⟨i⟩ = i) ∧
    (i ≥ U32_MAX →
      Ebb.new i = none ∧ Inst.new i = none ∧
      StackSlot.new i = none ∧ JumpTable.new i = none) ∧
    (Value.new_direct ⟨i⟩ = none ↔ i * 2 ≥ U32_MAX) ∧
    (Value.new_table i = none ↔ i * 2 + 1 ≥ U32_MAX) ∧
    (i * 2 < U32_MAX → Value.new_direct ⟨i⟩ = some ⟨i * 2⟩) ∧
    (i * 2 + 1 < U32_MAX → Value.new_table i = some ⟨i * 2 + 1⟩) := by
  refine ⟨?_, ?_, ?_, ?_, ?_, ?_⟩
  · intro h
    simp [Ebb.new, Inst.new, StackSlot.new, JumpTable.new, h,
      Ebb.index, Inst.index, StackSlot.index, JumpTable.index]
  · intro h
    have h2 : ¬ (i < U32_MAX) := by omega
    simp [Ebb.new, Inst.new, StackSlot.new, JumpTable.new, h2]
  · unfold Value.new_direct
    simp [Inst.index]
  · unfold Value.new_table
    simp
  · intro h
    simp [Value.new_direct, Inst.index, h]
  · intro h
    simp [Value.new_table, h]

/-- Witness for C5 at index 7 and at the sentinel index. -/
theorem C5_witness :
    Ebb.new 7 = some ⟨7⟩ ∧ Ebb.new U32_MAX = none :=
  ⟨((C5_constructor_assertions 7).1 (by decide)).1,
   ((C5_constructor_assertions U32_MAX).2.1 (by decide)).1⟩

/-- Claim C6: the default-constructed reference of every entity type equals
that type's sentinel constant; the sentinel Value expands to `Absent` and
prints the reserved marker token, which differs from every direct form
`v<n>` and every table form `vx<n>`. -/
theorem C6_defaults_and_marker (n : Nat) :
    Ebb.defaultRef = NO_EBB ∧ Inst.defaultRef = NO_INST ∧
    Value.defaultRef = NO_VALUE ∧ StackSlot.defaultRef = NO_STACK_SLOT ∧
    JumpTable.defaultRef = NO_JUMP_TABLE ∧
    Value.expand NO_VALUE = some ExpandedValue.Absent ∧
    Value.display NO_VALUE = some ("NO_VALUE" : String) ∧
    ("v" : String) ++ Nat.repr n ≠ ("NO_VALUE" : String) ∧
    ("vx" : String) ++ Nat.repr n ≠ ("NO_VALUE" : String) :=
  ⟨rfl, rfl, rfl, rfl, rfl, by decide, by decide,
   string_v_ne_marker (Nat.repr n), string_vx_ne_marker (Nat.repr n)⟩

/-- Witness for C6 at the numeral 12. -/
theorem C6_witness : ("v" : String) ++ Nat.repr 12 ≠ ("NO_VALUE" : String) :=
  (C6_defaults_and_marker 12).2.2.2.2.2.2.2.1

/-- Claim C7: for every 32-bit numeral `n`, `Ebb::with_number n` returns the
block reference with index `n` when `n` is not the sentinel, and is absent
exactly when `n = u32::MAX`; no further range restriction applies. -/
theorem C7_ebb_with_number (n : Nat) (hn : n < 2 ^ 32) :
    (n ≠ U32_MAX → Ebb.with_number n = some ⟨n⟩) ∧
    (Ebb.with_number n = none ↔ n = U32_MAX) := by
  constructor
  · intro h
    have h2 : n < U32_MAX := by
      simp only [U32_MAX] at *
      omega
    simp [Ebb.with_number, h2]
  · unfold Ebb.with_number
    split
    · next h =>
      simp only [U32_MAX] at h
      constructor
      · intro hc
        exact Option.noConfusion hc
      · intro hc
        simp only [U32_MAX] at hc
        omega
    · next h =>
      simp only [U32_MAX] at h
      constructor
      · intro hd
        simp only [U32_MAX]
        omega
      · intro hd
        rfl

/-- Witness for C7 at the numeral 3 and at the sentinel. -/
theorem C7_witness :
    Ebb.with_number 3 = some ⟨3⟩ ∧ (Ebb.with_number U32_MAX = none ↔ U32_MAX = U32_MAX) :=
  ⟨(C7_ebb_with_number 3 (by norm_num)).1 (by decide),
   (C7_ebb_with_number U32_MAX (by decide)).2⟩

/-- Claim C8: `expand` is total and internally safe on every 32-bit payload:
the internal `Inst::new (p / 2)` call on the even branch satisfies that
constructor's assertion `p / 2 < u32::MAX`, so no payload makes `expand`
fault. -/
theorem C8_expand_total (p : Nat) (hp : p < 2 ^ 32) :
    (Value.expand ⟨p⟩).isSome = true ∧ (Inst.new (p / 2)).isSome = true := by
  have h2 : p / 2 < U32_MAX := by
    simp only [U32_MAX]
    omega
  have hi : Inst.new (p / 2) = some ⟨p / 2⟩ := by
    simp [Inst.new, h2]
  constructor
  · unfold Value.expand
    split
    · rfl
    · show (if p % 2 = 0 then
          (Inst.new (p / 2)).map ExpandedValue.Direct
        else
          some (ExpandedValue.Table (p / 2))).isSome = true
      split
      · rw [hi]
        rfl
      · rfl
  · rw [hi]
    rfl

/-- Witness for C8 at the largest even payload `4294967294`. -/
theorem C8_witness : (Value.expand ⟨4294967294⟩).isSome = true :=
  (C8_expand_total 4294967294 (by norm_num)).1

/-- Claim C9: the two encoding modes never collide.  Whenever `new_direct`
at instruction index `i` and `new_table t` both succeed, the produced
Values are distinct and neither is the sentinel, and each decodes back:
`expand` of the direct encoding is `Direct` with index `i` and `expand` of
the table encoding is `Table t`. -/
theorem C9_modes_disjoint (i t : Nat)
    (hi : Value.new_direct ⟨i⟩ ≠ none) (ht : Value.new_table t ≠ none) :
    Value.new_direct ⟨i⟩ ≠ Value.new_table t ∧
    Value.new_direct ⟨i⟩ ≠ some NO_VALUE ∧
    Value.new_table t ≠ some NO_VALUE ∧
    Value.new_direct ⟨i⟩ = some ⟨i * 2⟩ ∧
    Value.expand ⟨i * 2⟩ = some (ExpandedValue.Direct ⟨i⟩) ∧
    Value.new_table t = some ⟨t * 2 + 1⟩ ∧
    Value.expand ⟨t * 2 + 1⟩ = some (ExpandedValue.Table t) := by
  have hdi : i * 2 < U32_MAX := by
    by_contra hc
    apply hi
    show (if i * 2 < U32_MAX then some (⟨i * 2⟩ : Value) else none) = none
    exact if_neg hc
  have hdt : t * 2 + 1 < U32_MAX := by
    by_contra hc
    apply ht
    show (if t * 2 + 1 < U32_MAX then some (⟨t * 2 + 1⟩ : Value) else none) = none
    exact if_neg hc
  have hdi2 : i * 2 < 4294967295 := hdi
  have hdt2 : t * 2 + 1 < 4294967295 := hdt
  have hvd : Value.new_direct ⟨i⟩ = some ⟨i * 2⟩ := by
    simp [Value.new_direct, Inst.index, hdi]
  have hvt : Value.new_table t = some ⟨t * 2 + 1⟩ := by
    simp [Value.new_table, hdt]
  refine ⟨?_, ?_, ?_, hvd, expand_even i hdi, hvt, expand_odd t hdt⟩
  · rw [hvd, hvt]
    simp only [ne_eq, Option.some.injEq, Value.mk.injEq]
    omega
  · rw [hvd]
    simp only [ne_eq, Option.some.injEq, NO_VALUE, Value.mk.injEq, U32_MAX]
    omega
  · rw [hvt]
    simp only [ne_eq, Option.some.injEq, NO_VALUE, Value.mk.injEq, U32_MAX]
    omega


/-- Witness for C9 at instruction index 1 and table index 1. -/
theorem C9_witness : Value.new_direct ⟨1⟩ ≠ Value.new_table 1 :=
  (C9_modes_disjoint 1 1 (by decide) (by decide)).1

/-- Claim C10: boundary asymmetry between the semantic and textual direct
constructors.  At instruction index `2147483647 = u32::MAX / 2`,
`new_direct` succeeds with encoding `4294967294` and the Value prints as
`v2147483647`, yet `direct_with_number 2147483647` is absent, so this
printable direct Value's numeral cannot be re-parsed by the textual
constructor. -/
theorem C10_boundary_asymmetry :
    Value.new_direct ⟨2147483647⟩ = some ⟨4294967294⟩ ∧
    Value.display ⟨4294967294⟩ = some ("v2147483647" : String) ∧
    Value.direct_with_number 2147483647 = none := by
  refine ⟨by decide, ?_, by decide⟩
  decide
